import Mathlib

/-!
Shallow embedding of `src/npz.py` (class `IncrementalNpzWriter`).

The Python class wraps a `zipfile.ZipFile` handle and streams numpy-encoded
buffers into zip entries.  We model:

* bytes as `List Nat`;
* the external numpy encoder `np.save` as an opaque encoder parameter
  (plus a concrete spec-modelled instance for evaluation);
* the zipfile library state as a `World` holding every `ZipHandle` ever
  created on behalf of the writer (so leaked handles stay visible);
* each operation returns its result together with a trace of `Event`s, so
  that call counts ("close is called exactly once") are statable;
* Python exceptions as `PyError` values in `Except` results.

Faithfulness notes, from the CPython semantics the source relies on:

* `assert mode in 'xwa'` is a *substring* test on strings;
* `zipfile.ZipFile(path, mode=...)` requires mode to be exactly one of
  `r`, `w`, `x`, `a`;
* `ZipFile.open(name, mode=...)` requires mode to be exactly `r` or `w`
  (checked before the closed-archive check), and the source passes
  `self.mode` there;
* `close` runs `self.file.close()` *before* `self.tofile = None`, so a
  failing handle close leaves `tofile` set;
* `close` on a never-opened writer dereferences `self.file = None`,
  raising `AttributeError`.
-/

/-- A multidimensional numpy array, kept abstract: shape plus raw payload
bytes.  The encoding of arrays is an external collaborator. -/
structure NpArray where
  shape : List Nat
  payload : List Nat
deriving DecidableEq

/-- The `data` argument of `IncrementalNpzWriter.write`:
`typing.Union[np.ndarray, bytes]`. -/
inductive NpzData
  | array (a : NpArray)
  | raw (b : List Nat)
deriving DecidableEq

/-- The 6-byte magic prefix of the npy format (`\x93NUMPY`). -/
def npyMagic : List Nat := [147, 78, 85, 77, 80, 89]

/-- Modelled from the spec: the external array encoder `np.save`
("canonical binary array format, header + dtype + shape + raw payload",
treated as a black box).  We model it as the npy magic header followed by
the shape data and payload; for a raw byte blob, numpy wraps the
bytes object as a 0-d array, so the header is still prepended. -/
def npSaveBytes : NpzData → List Nat
  | .array a => npyMagic ++ a.shape ++ a.payload
  | .raw b => npyMagic ++ b

/-- Python exceptions that the source can raise. -/
inductive PyError
  | assertionError (msg : String)
  | valueError (msg : String)
  | typeError (msg : String)
  | attributeError (msg : String)
  | keyError (msg : String)
  | ioError (msg : String)
deriving DecidableEq

/-- One named entry inside the zip archive: its name, content bytes,
whether large-file (zip64) addressing was requested when its output
channel was opened, and whether that channel was closed. -/
structure Entry where
  name : String
  content : List Nat
  zip64 : Bool
  channelClosed : Bool
deriving DecidableEq

/-- One `zipfile.ZipFile` handle.  `closeFails` models environment
nondeterminism: whether the underlying flush/close of this handle will
fail with an I/O error. -/
structure ZipHandle where
  entries : List Entry
  isOpen : Bool
  closeFails : Bool
deriving DecidableEq

/-- The zipfile-library state: every handle ever created on behalf of the
writer, in creation order.  Leaked handles remain in the list. -/
structure World where
  handles : List ZipHandle
deriving DecidableEq

def emptyWorld : World := ⟨[]⟩

/-- The writer object's fields, as in `__init__`:  `tofile` doubles as the
closed sentinel (`None` once closed), `file` is the index of the current
`ZipFile` handle in the `World` (`None` until `openFile`). -/
structure IncrementalNpzWriter where
  tofile : Option String
  mode : String
  compression : Nat
  file : Option Nat
deriving DecidableEq

/-- `zipfile.ZIP_STORED`. -/
def zipStored : Nat := 0

/-- `zipfile.ZIP_DEFLATED`. -/
def zipDeflated : Nat := 8

/-- Observable events emitted by the operations, used to state call-count
properties. -/
inductive Event
  | handleOpened (i : Nat)
  | entryOpened (name : String) (zip64 : Bool)
  | closeCalled
  | handleCloseAttempt (i : Nat)
deriving DecidableEq

/-- `needle.isPrefixOf haystack` on char lists. -/
def isPrefixList : List Char → List Char → Bool
  | [], _ => true
  | _ :: _, [] => false
  | a :: as, b :: bs => a = b && isPrefixList as bs

/-- Substring test on char lists. -/
def isInfixList (needle : List Char) : List Char → Bool
  | [] => isPrefixList needle []
  | b :: bs => isPrefixList needle (b :: bs) || isInfixList needle bs

/-- Python's `needle in haystack` on strings: substring containment. -/
def pyStrIn (needle haystack : String) : Bool :=
  isInfixList needle.data haystack.data

/-- `IncrementalNpzWriter.__init__(tofile, mode, compress_file)`:
`assert mode in 'xwa'` (a substring test!), then store the configuration;
no I/O yet. -/
def initWriter (tofile : String) (mode : String) (compress_file : Bool) :
    Except PyError IncrementalNpzWriter :=
  if pyStrIn mode "xwa" then
    .ok { tofile := some tofile, mode := mode,
          compression := if compress_file then zipDeflated else zipStored,
          file := none }
  else
    .error (.assertionError mode)

/-- `IncrementalNpzWriter.openFile`:
`self.file = zipfile.ZipFile(self.tofile, mode=self.mode, compression=...)`.
`ZipFile` requires the mode to be exactly one of r/w/x/a and a non-None
path; on success a fresh handle is created (filesystem effects are
abstracted away) and the writer's `file` field points at it.  The
`failClose` parameter is environment nondeterminism for the new handle. -/
def openFile (w : IncrementalNpzWriter) (env : World) (failClose : Bool) :
    Except PyError (IncrementalNpzWriter × World) × List Event :=
  match w.tofile with
  | none =>
    (.error (.typeError "expected str, bytes or os.PathLike object, not NoneType"), [])
  | some _ =>
    if w.mode = "r" ∨ w.mode = "w" ∨ w.mode = "x" ∨ w.mode = "a" then
      (.ok ({ w with file := some env.handles.length },
            ⟨env.handles ++ [{ entries := [], isOpen := true, closeFails := failClose }]⟩),
       [.handleOpened env.handles.length])
    else
      (.error (.valueError "ZipFile requires mode r, w, x, or a"), [])

/-- `IncrementalNpzWriter.write(key, data)`:
`key += '.npy'`; encode `data` with `np.save` into an in-memory buffer;
`self.file.open(key, mode=self.mode, force_zip64=True)`; stream the whole
buffer in and close the entry channel.  `ZipFile.open` checks its mode
argument (only `r`/`w` allowed) before the closed-archive check; the
source passes the *writer's* mode.  The encoder is a parameter. -/
def write (enc : NpzData → List Nat) (w : IncrementalNpzWriter) (env : World)
    (key : String) (data : NpzData) : Except PyError World × List Event :=
  match w.file with
  | none => (.error (.attributeError "NoneType object has no attribute open"), [])
  | some i =>
    match env.handles[i]? with
    | none => (.error (.attributeError "invalid handle"), [])
    | some h =>
      if w.mode ≠ "r" ∧ w.mode ≠ "w" then
        (.error (.valueError "open requires mode r or w"), [])
      else if h.isOpen = false then
        (.error (.valueError "Attempt to use ZIP archive that was already closed"), [])
      else if w.mode = "w" then
        (.ok ⟨env.handles.set i
                { h with entries := h.entries ++
                    [⟨key ++ ".npy", enc data, true, true⟩] }⟩,
         [.entryOpened (key ++ ".npy") true])
      else
        (.error (.keyError (key ++ ".npy")), [])

/-- `IncrementalNpzWriter.close`:
if `self.tofile is not None`: `self.file.close()` then `self.tofile = None`.
If the handle close fails, the exception propagates before `tofile` is
nulled.  A never-opened writer dereferences `self.file = None`. -/
def close (w : IncrementalNpzWriter) (env : World) :
    Except PyError (IncrementalNpzWriter × World) × List Event :=
  match w.tofile with
  | none => (.ok (w, env), [.closeCalled])
  | some _ =>
    match w.file with
    | none =>
      (.error (.attributeError "NoneType object has no attribute close"), [.closeCalled])
    | some i =>
      match env.handles[i]? with
      | none => (.error (.attributeError "invalid handle"), [.closeCalled])
      | some h =>
        if h.isOpen && h.closeFails then
          (.error (.ioError "flush failed"), [.closeCalled, .handleCloseAttempt i])
        else
          (.ok ({ w with tofile := none }, ⟨env.handles.set i { h with isOpen := false }⟩),
           [.closeCalled, .handleCloseAttempt i])

/-- Result of a `with IncrementalNpzWriter(...) as writer:` scope. -/
structure ScopeResult where
  writer : IncrementalNpzWriter
  world : World
  err : Option PyError
  trace : List Event
deriving DecidableEq

/-- Python `with` semantics over the class: `__enter__` runs `openFile`
and returns the writer; the body runs (possibly raising); `__exit__`
unconditionally calls `close()` once; a body exception is not suppressed
(an exception from `close` itself replaces the outcome). -/
def withWriter (w : IncrementalNpzWriter) (env : World) (failClose : Bool)
    (body : IncrementalNpzWriter → World → World × Option PyError × List Event) :
    ScopeResult :=
  match openFile w env failClose with
  | (.error e, tr) => ⟨w, env, some e, tr⟩
  | (.ok (w1, env1), tr1) =>
    match body w1 env1 with
    | (env2, berr, tr2) =>
      match close w1 env2 with
      | (.ok (w2, env3), tr3) => ⟨w2, env3, berr, tr1 ++ tr2 ++ tr3⟩
      | (.error e, tr3) => ⟨w1, env2, some e, tr1 ++ tr2 ++ tr3⟩

/-- A scope body that performs a sequence of `write` calls, stopping at
the first raised exception (whose mutations so far persist). -/
def runAppends (enc : NpzData → List Nat) (w : IncrementalNpzWriter) :
    World → List (String × NpzData) → World × Option PyError × List Event
  | env, [] => (env, none, [])
  | env, (k, d) :: rest =>
    match write enc w env k d with
    | (.ok env1, tr) =>
      let r := runAppends enc w env1 rest
      (r.1, r.2.1, tr ++ r.2.2)
    | (.error e, tr) => (env, some e, tr)

/-- Scoped usage performing a list of appends in the body. -/
def withAppends (enc : NpzData → List Nat) (w : IncrementalNpzWriter) (env : World)
    (failClose : Bool) (items : List (String × NpzData)) : ScopeResult :=
  withWriter w env failClose (fun w1 env1 => runAppends enc w1 env1 items)

/-- Caller-visible operations on one writer instance, for reachability. -/
inductive Op
  | openF (failClose : Bool)
  | append (key : String) (data : NpzData)
  | closeW
deriving DecidableEq

/-- One caller step: run the operation; a raised exception leaves the
(writer, world) state as mutated so far (here: unchanged, since every
error branch of the model precedes its mutation). -/
def step (enc : NpzData → List Nat) (s : IncrementalNpzWriter × World) :
    Op → IncrementalNpzWriter × World
  | .openF fc =>
    match (openFile s.1 s.2 fc).1 with
    | .ok s' => s'
    | .error _ => s
  | .append k d =>
    match (write enc s.1 s.2 k d).1 with
    | .ok env' => (s.1, env')
    | .error _ => s
  | .closeW =>
    match (close s.1 s.2).1 with
    | .ok s' => s'
    | .error _ => s

/-- Run a sequence of caller operations. -/
def runOps (enc : NpzData → List Nat) (s : IncrementalNpzWriter × World)
    (ops : List Op) : IncrementalNpzWriter × World :=
  ops.foldl (step enc) s

/-- Number of currently open zip handles. -/
def countOpen : List ZipHandle → Nat
  | [] => 0
  | h :: t => h.isOpen.toNat + countOpen t

def openHandleCount (env : World) : Nat := countOpen env.handles

/-- Number of `openFile` invocations in an operation sequence. -/
def countOpens : List Op → Nat
  | [] => 0
  | .openF _ :: rest => countOpens rest + 1
  | .append _ _ :: rest => countOpens rest
  | .closeW :: rest => countOpens rest

/-- Does this event record an invocation of `close()`? -/
def isCloseCallEv : Event → Bool
  | .closeCalled => true
  | _ => false

/-- Does this event record an underlying-handle close attempt? -/
def isCloseAttemptEv : Event → Bool
  | .handleCloseAttempt _ => true
  | _ => false

/-- Number of `close()` invocations recorded in a trace. -/
def countCloseCalls (tr : List Event) : Nat := tr.countP isCloseCallEv

/-- Number of underlying-handle close attempts recorded in a trace. -/
def countHandleCloseAttempts (tr : List Event) : Nat := tr.countP isCloseAttemptEv

/-! ### Concrete sample states for evaluation -/

/-- A freshly constructed (never opened) writer with mode `x`. -/
def wXunopened : IncrementalNpzWriter := ⟨some "test.npz", "x", 0, none⟩

/-- A freshly constructed (never opened) writer with mode `w`. -/
def wWunopened : IncrementalNpzWriter := ⟨some "test.npz", "w", 0, none⟩

/-- A writer with mode `x` after `openFile` created handle 0. -/
def wXopened : IncrementalNpzWriter := ⟨some "test.npz", "x", 0, some 0⟩

/-- A writer with mode `a` after `openFile` created handle 0. -/
def wAopened : IncrementalNpzWriter := ⟨some "test.npz", "a", 0, some 0⟩

/-- A writer with mode `w` after `openFile` created handle 0. -/
def wWopened : IncrementalNpzWriter := ⟨some "test.npz", "w", 0, some 0⟩

/-- A world with one freshly opened, well-behaved handle. -/
def envOne : World := ⟨[⟨[], true, false⟩]⟩

/-- A world with one open handle whose underlying close will fail. -/
def envFail : World := ⟨[⟨[], true, true⟩]⟩

/-! ### List helper lemmas -/

theorem listMapSetSame {α β : Type} (f : α → β) (l : List α) (i : Nat) (a b : α)
    (hget : l[i]? = some b) (hfa : f a = f b) : (l.set i a).map f = l.map f := by
  induction l generalizing i with
  | nil => simp at hget
  | cons x t ih =>
    cases i with
    | zero =>
      rw [List.getElem?_cons_zero] at hget
      cases hget
      simp [hfa]
    | succ n =>
      rw [List.getElem?_cons_succ] at hget
      simp [ih n hget]

/-! ### Counting open handles -/

/-- The lifecycle-relevant flags of a handle. -/
def handleFlags (h : ZipHandle) : Bool × Bool := (h.isOpen, h.closeFails)

def worldFlags (env : World) : List (Bool × Bool) := env.handles.map handleFlags

theorem countOpen_append (l₁ l₂ : List ZipHandle) :
    countOpen (l₁ ++ l₂) = countOpen l₁ + countOpen l₂ := by
  induction l₁ with
  | nil =>
    show countOpen l₂ = countOpen [] + countOpen l₂
    simp [countOpen]
  | cons x t ih =>
    show x.isOpen.toNat + countOpen (t ++ l₂) = x.isOpen.toNat + countOpen t + countOpen l₂
    rw [ih]
    omega

theorem countOpen_congr (l₁ l₂ : List ZipHandle)
    (h : l₁.map handleFlags = l₂.map handleFlags) : countOpen l₁ = countOpen l₂ := by
  induction l₁ generalizing l₂ with
  | nil => cases l₂ <;> simp_all [countOpen]
  | cons x t ih =>
    cases l₂ with
    | nil => simp at h
    | cons y u =>
      simp only [List.map, List.cons.injEq] at h
      have hx : x.isOpen = y.isOpen := congrArg Prod.fst h.1
      simp [countOpen, hx, ih u h.2]

theorem countOpen_set_le (l : List ZipHandle) (i : Nat) (h h' : ZipHandle)
    (hget : l[i]? = some h) (hop : h'.isOpen = false) :
    countOpen (l.set i h') ≤ countOpen l := by
  induction l generalizing i with
  | nil => simp at hget
  | cons x t ih =>
    cases i with
    | zero =>
      simp only [List.set, countOpen, hop, Bool.toNat_false]
      omega
    | succ n =>
      rw [List.getElem?_cons_succ] at hget
      simp only [List.set, countOpen]
      have := ih n hget
      omega

theorem countOpen_set_same (l : List ZipHandle) (i : Nat) (h h' : ZipHandle)
    (hget : l[i]? = some h) (hop : h'.isOpen = h.isOpen) :
    countOpen (l.set i h') = countOpen l := by
  induction l generalizing i with
  | nil => simp at hget
  | cons x t ih =>
    cases i with
    | zero =>
      rw [List.getElem?_cons_zero] at hget
      cases hget
      simp only [List.set, countOpen, hop]
    | succ n =>
      rw [List.getElem?_cons_succ] at hget
      simp only [List.set, countOpen]
      have := ih n hget
      omega

/-! ### Inversion lemmas for the operations -/

/-- Full case analysis of `write`: either the writer's mode is `w`, its
handle exists and is open, and the result appends exactly one entry named
`key ++ ".npy"` with content `enc data`, zip64 requested and channel
closed — or an exception is raised, no event is emitted and the world
is untouched. -/
theorem write_spec (enc : NpzData → List Nat) (w : IncrementalNpzWriter) (env : World)
    (key : String) (data : NpzData) :
    (∃ i h, w.file = some i ∧ env.handles[i]? = some h ∧ h.isOpen = true ∧
       w.mode = "w" ∧
       write enc w env key data =
         (.ok ⟨env.handles.set i
            { h with entries := h.entries ++ [⟨key ++ ".npy", enc data, true, true⟩] }⟩,
          [.entryOpened (key ++ ".npy") true])) ∨
    ((∃ e, (write enc w env key data).1 = .error e) ∧ (write enc w env key data).2 = []) := by
  rcases hfile : w.file with _ | i
  · have hEq : write enc w env key data =
        (.error (.attributeError "NoneType object has no attribute open"), []) := by
      simp [write, hfile]
    right
    exact ⟨⟨.attributeError "NoneType object has no attribute open", by rw [hEq]⟩, by rw [hEq]⟩
  rcases hget : env.handles[i]? with _ | h
  · have hEq : write enc w env key data =
        (.error (.attributeError "invalid handle"), []) := by
      simp [write, hfile, hget]
    right
    exact ⟨⟨.attributeError "invalid handle", by rw [hEq]⟩, by rw [hEq]⟩
  by_cases hw : w.mode = "w"
  · cases hopen : h.isOpen
    · have hEq : write enc w env key data =
          (.error (.valueError "Attempt to use ZIP archive that was already closed"), []) := by
        simp [write, hfile, hget, hw, hopen]
      right
      exact ⟨⟨.valueError "Attempt to use ZIP archive that was already closed", by rw [hEq]⟩,
             by rw [hEq]⟩
    · left
      exact ⟨i, h, rfl, hget, hopen, hw, by simp [write, hfile, hget, hw, hopen]⟩
  · by_cases hr : w.mode = "r"
    · cases hopen : h.isOpen
      · have hEq : write enc w env key data =
            (.error (.valueError "Attempt to use ZIP archive that was already closed"), []) := by
          simp [write, hfile, hget, hw, hr, hopen]
        right
        exact ⟨⟨.valueError "Attempt to use ZIP archive that was already closed", by rw [hEq]⟩,
               by rw [hEq]⟩
      · have hEq : write enc w env key data = (.error (.keyError (key ++ ".npy")), []) := by
          simp [write, hfile, hget, hw, hr, hopen]
        right
        exact ⟨⟨.keyError (key ++ ".npy"), by rw [hEq]⟩, by rw [hEq]⟩
    · have hEq : write enc w env key data = (.error (.valueError "open requires mode r or w"), []) := by
        simp [write, hfile, hget, hw, hr]
      right
      exact ⟨⟨.valueError "open requires mode r or w", by rw [hEq]⟩, by rw [hEq]⟩

/-- If `write` returns successfully, the new world is the old one with
exactly one entry appended to the writer's handle. -/
theorem write_ok_inv (enc : NpzData → List Nat) (w : IncrementalNpzWriter) (env : World)
    (key : String) (data : NpzData) (env' : World)
    (hok : (write enc w env key data).1 = .ok env') :
    ∃ i h, w.file = some i ∧ env.handles[i]? = some h ∧ h.isOpen = true ∧
      w.mode = "w" ∧
      env' = ⟨env.handles.set i
        { h with entries := h.entries ++ [⟨key ++ ".npy", enc data, true, true⟩] }⟩ ∧
      (write enc w env key data).2 = [.entryOpened (key ++ ".npy") true] := by
  rcases write_spec enc w env key data with ⟨i, h, hfile, hget, hopen, hw, heq⟩ | ⟨⟨e, he⟩, _⟩
  · refine ⟨i, h, hfile, hget, hopen, hw, ?_, ?_⟩
    · rw [heq] at hok
      exact (Except.ok.inj hok).symm
    · rw [heq]
  · rw [he] at hok
    cases hok

/-- When the path is set and the mode is one of r/w/x/a, `openFile`
appends one fresh open handle and points the writer at it. -/
theorem openFile_eq (w : IncrementalNpzWriter) (env : World) (failClose : Bool) (p : String)
    (hpath : w.tofile = some p)
    (hm : w.mode = "r" ∨ w.mode = "w" ∨ w.mode = "x" ∨ w.mode = "a") :
    openFile w env failClose =
      (.ok ({ w with file := some env.handles.length },
            ⟨env.handles ++ [⟨[], true, failClose⟩]⟩),
       [.handleOpened env.handles.length]) := by
  simp [openFile, hpath, hm]

/-- Full case analysis of `openFile`. -/
theorem openFile_cases (w : IncrementalNpzWriter) (env : World) (failClose : Bool) :
    (∃ p, w.tofile = some p ∧
       (w.mode = "r" ∨ w.mode = "w" ∨ w.mode = "x" ∨ w.mode = "a") ∧
       openFile w env failClose =
         (.ok ({ w with file := some env.handles.length },
               ⟨env.handles ++ [⟨[], true, failClose⟩]⟩),
          [.handleOpened env.handles.length])) ∨
    (∃ e, (openFile w env failClose).1 = .error e ∧ (openFile w env failClose).2 = []) := by
  rcases hpath : w.tofile with _ | p
  · have hEq : openFile w env failClose =
        (.error (.typeError "expected str, bytes or os.PathLike object, not NoneType"), []) := by
      simp [openFile, hpath]
    right
    exact ⟨.typeError "expected str, bytes or os.PathLike object, not NoneType",
           by rw [hEq], by rw [hEq]⟩
  by_cases hm : w.mode = "r" ∨ w.mode = "w" ∨ w.mode = "x" ∨ w.mode = "a"
  · left
    exact ⟨p, rfl, hm, by rw [openFile_eq w env failClose p hpath hm, hpath]⟩
  · have hEq : openFile w env failClose =
        (.error (.valueError "ZipFile requires mode r, w, x, or a"), []) := by
      simp [openFile, hpath, hm]
    right
    exact ⟨.valueError "ZipFile requires mode r, w, x, or a", by rw [hEq], by rw [hEq]⟩

/-- Full case analysis of `close`. -/
theorem close_spec (w : IncrementalNpzWriter) (env : World) :
    (w.tofile = none ∧ close w env = (.ok (w, env), [.closeCalled])) ∨
    (∃ p, w.tofile = some p ∧ w.file = none ∧
       close w env = (.error (.attributeError "NoneType object has no attribute close"),
                      [.closeCalled])) ∨
    (∃ p i h, w.tofile = some p ∧ w.file = some i ∧ env.handles[i]? = some h ∧
       ((h.isOpen = true ∧ h.closeFails = true ∧
          close w env = (.error (.ioError "flush failed"),
                         [.closeCalled, .handleCloseAttempt i])) ∨
        ((h.isOpen = false ∨ h.closeFails = false) ∧
          close w env = (.ok ({ w with tofile := none },
                              ⟨env.handles.set i { h with isOpen := false }⟩),
                         [.closeCalled, .handleCloseAttempt i])))) ∨
    (∃ p i, w.tofile = some p ∧ w.file = some i ∧ env.handles[i]? = none ∧
       close w env = (.error (.attributeError "invalid handle"), [.closeCalled])) := by
  rcases hpath : w.tofile with _ | p
  · left
    exact ⟨rfl, by simp [close, hpath]⟩
  rcases hfile : w.file with _ | i
  · right; left
    exact ⟨p, rfl, rfl, by simp [close, hpath, hfile]⟩
  rcases hget : env.handles[i]? with _ | h
  · right; right; right
    exact ⟨p, i, rfl, rfl, hget, by simp [close, hpath, hfile, hget]⟩
  right; right; left
  refine ⟨p, i, h, rfl, rfl, hget, ?_⟩
  cases hopen : h.isOpen
  · right
    exact ⟨Or.inl rfl, by simp [close, hpath, hfile, hget, hopen]⟩
  · cases hcf : h.closeFails
    · right
      exact ⟨Or.inr rfl, by simp [close, hpath, hfile, hget, hopen, hcf]⟩
    · left
      exact ⟨rfl, rfl, by simp [close, hpath, hfile, hget, hopen, hcf]⟩

/-! ### Preservation and trace lemmas -/

theorem countCloseCalls_append (a b : List Event) :
    countCloseCalls (a ++ b) = countCloseCalls a + countCloseCalls b :=
  List.countP_append isCloseCallEv a b

theorem countHandleCloseAttempts_append (a b : List Event) :
    countHandleCloseAttempts (a ++ b) =
      countHandleCloseAttempts a + countHandleCloseAttempts b :=
  List.countP_append isCloseAttemptEv a b

/-- A successful `write` leaves every handle's lifecycle flags alone. -/
theorem write_ok_flags (enc : NpzData → List Nat) (w : IncrementalNpzWriter) (env : World)
    (key : String) (data : NpzData) (env' : World)
    (hok : (write enc w env key data).1 = .ok env') :
    worldFlags env' = worldFlags env := by
  obtain ⟨i, h, hfile, hget, hopen, hw, henv, htr⟩ := write_ok_inv enc w env key data env' hok
  subst henv
  exact listMapSetSame handleFlags env.handles i _ h hget rfl

/-- `write` emits no `close()` events. -/
theorem write_trace_closeCalls (enc : NpzData → List Nat) (w : IncrementalNpzWriter)
    (env : World) (key : String) (data : NpzData) :
    countCloseCalls (write enc w env key data).2 = 0 := by
  rcases write_spec enc w env key data with ⟨i, h, _, _, _, _, heq⟩ | ⟨_, htr⟩
  · rw [heq]
    rfl
  · rw [htr]
    rfl

/-- A sequence of appends leaves every handle's lifecycle flags alone. -/
theorem runAppends_flags (enc : NpzData → List Nat) (w : IncrementalNpzWriter)
    (items : List (String × NpzData)) : ∀ env : World,
    worldFlags (runAppends enc w env items).1 = worldFlags env := by
  induction items with
  | nil => intro env; rfl
  | cons kd rest ih =>
    intro env
    obtain ⟨k, d⟩ := kd
    rcases hw : write enc w env k d with ⟨res, tr⟩
    cases res with
    | ok env1 =>
      have h1 : (write enc w env k d).1 = .ok env1 := by rw [hw]
      calc worldFlags (runAppends enc w env ((k, d) :: rest)).1
          = worldFlags (runAppends enc w env1 rest).1 := by simp [runAppends, hw]
        _ = worldFlags env1 := ih env1
        _ = worldFlags env := write_ok_flags enc w env k d env1 h1
    | error e =>
      simp [runAppends, hw]

/-- A sequence of appends never invokes `close()`. -/
theorem runAppends_closeCalls (enc : NpzData → List Nat) (w : IncrementalNpzWriter)
    (items : List (String × NpzData)) : ∀ env : World,
    countCloseCalls (runAppends enc w env items).2.2 = 0 := by
  induction items with
  | nil => intro env; rfl
  | cons kd rest ih =>
    intro env
    obtain ⟨k, d⟩ := kd
    rcases hw : write enc w env k d with ⟨res, tr⟩
    have htr0 : countCloseCalls tr = 0 := by
      have h0 := write_trace_closeCalls enc w env k d
      rw [hw] at h0
      exact h0
    cases res with
    | ok env1 =>
      calc countCloseCalls (runAppends enc w env ((k, d) :: rest)).2.2
          = countCloseCalls (tr ++ (runAppends enc w env1 rest).2.2) := by
            simp [runAppends, hw]
        _ = countCloseCalls tr + countCloseCalls (runAppends enc w env1 rest).2.2 :=
            countCloseCalls_append _ _
        _ = 0 := by rw [htr0, ih env1]
    | error e =>
      calc countCloseCalls (runAppends enc w env ((k, d) :: rest)).2.2
          = countCloseCalls tr := by simp [runAppends, hw]
        _ = 0 := htr0

/-! ### Open-handle counting along caller operation sequences -/

/-- One caller step creates at most one new open handle, and only an
`openFile` step can do so. -/
theorem step_countOpen_le (enc : NpzData → List Nat) (s : IncrementalNpzWriter × World)
    (op : Op) :
    openHandleCount (step enc s op).2 ≤ openHandleCount s.2 + countOpens [op] := by
  cases op with
  | openF fc =>
    rcases hr : (openFile s.1 s.2 fc).1 with e | s'
    · simp only [step, hr]
      simp [countOpens]
    · rcases openFile_cases s.1 s.2 fc with ⟨p, hpath, hm, heq⟩ | ⟨e, he, _⟩
      · have hpair : s' = ({ s.1 with file := some s.2.handles.length },
            ⟨s.2.handles ++ [⟨[], true, fc⟩]⟩) := by
          have h1 := congrArg Prod.fst heq
          rw [hr] at h1
          exact Except.ok.inj h1
        simp only [step, hr, hpair]
        show countOpen (s.2.handles ++ [⟨[], true, fc⟩]) ≤ openHandleCount s.2 + countOpens [.openF fc]
        rw [countOpen_append]
        show countOpen s.2.handles + 1 ≤ countOpen s.2.handles + 1
        omega
      · rw [he] at hr
        cases hr
  | append k d =>
    rcases hr : (write enc s.1 s.2 k d).1 with e | env'
    · simp only [step, hr]
      simp [countOpens]
    · have hflags := write_ok_flags enc s.1 s.2 k d env' hr
      have hco : openHandleCount env' = openHandleCount s.2 := countOpen_congr _ _ hflags
      simp only [step, hr]
      simp [countOpens, hco]
  | closeW =>
    rcases hr : (close s.1 s.2).1 with e | s'
    · simp only [step, hr]
      simp [countOpens]
    · rcases close_spec s.1 s.2 with ⟨hn, heq⟩ | ⟨p, _, _, heq⟩ |
        ⟨p, i, h, hp, hf, hget, hca⟩ | ⟨p, i, _, _, _, heq⟩
      · have hpair : s' = (s.1, s.2) := by
          have h1 := congrArg Prod.fst heq
          rw [hr] at h1
          exact Except.ok.inj h1
        simp only [step, hr, hpair]
        simp [countOpens]
      · have h1 := congrArg Prod.fst heq
        rw [hr] at h1
        cases h1
      · rcases hca with ⟨_, _, heq⟩ | ⟨_, heq⟩
        · have h1 := congrArg Prod.fst heq
          rw [hr] at h1
          cases h1
        · have hpair : s' = ({ s.1 with tofile := none },
              ⟨s.2.handles.set i { h with isOpen := false }⟩) := by
            have h1 := congrArg Prod.fst heq
            rw [hr] at h1
            exact Except.ok.inj h1
          simp only [step, hr, hpair]
          show countOpen (s.2.handles.set i { h with isOpen := false }) ≤
            openHandleCount s.2 + countOpens [.closeW]
          have hle := countOpen_set_le s.2.handles i h { h with isOpen := false } hget rfl
          show countOpen (s.2.handles.set i { h with isOpen := false }) ≤
            countOpen s.2.handles + 0
          omega
      · have h1 := congrArg Prod.fst heq
        rw [hr] at h1
        cases h1

/-- Along any operation sequence, the number of open handles grows by at
most the number of `openFile` invocations. -/
theorem runOps_countOpen_le (enc : NpzData → List Nat) (ops : List Op) :
    ∀ s : IncrementalNpzWriter × World,
    openHandleCount (runOps enc s ops).2 ≤ openHandleCount s.2 + countOpens ops := by
  induction ops with
  | nil =>
    intro s
    simp [runOps, countOpens]
  | cons op rest ih =>
    intro s
    have h1 := step_countOpen_le enc s op
    have h2 := ih (step enc s op)
    have hr : runOps enc s (op :: rest) = runOps enc (step enc s op) rest := rfl
    have hc : countOpens (op :: rest) = countOpens [op] + countOpens rest := by
      cases op <;> simp [countOpens, Nat.add_comm]
    rw [hr, hc]
    omega

/-! ### Claim theorems -/

/-- C1 (code bug evaluation): the constructor accepts modes x/w/a, but
`write` passes the writer's own mode to the entry-open call, which only
accepts r or w — so on a writer opened under mode x or a, every `write`
raises ValueError instead of appending an entry. -/
theorem writeFailsUnderModesXandA :
    initWriter "test.npz" "x" false = .ok wXunopened ∧
    (openFile wXunopened emptyWorld false).1 = .ok (wXopened, envOne) ∧
    (write npSaveBytes wXopened envOne "arr0" (.raw [1, 2, 3])).1 =
      .error (.valueError "open requires mode r or w") ∧
    (write npSaveBytes wAopened envOne "arr0" (.raw [1, 2, 3])).1 =
      .error (.valueError "open requires mode r or w") ∧
    (write npSaveBytes wWopened envOne "arr0" (.raw [1, 2, 3])).1 =
      .ok ⟨[⟨[⟨"arr0.npy", npSaveBytes (.raw [1, 2, 3]), true, true⟩], true, false⟩]⟩ :=
  ⟨rfl, rfl, rfl, rfl, rfl⟩

/-- C2 (code bug evaluation): the constructor's check `mode in 'xwa'` is a
Python substring test, so the invalid multi-character modes "xw" and "wa"
and the empty mode "" are accepted instead of rejected; a genuinely
non-substring mode such as "q" is rejected with an assertion error. -/
theorem modeCheckIsSubstring :
    (∃ w, initWriter "test.npz" "xw" false = .ok w) ∧
    (∃ w, initWriter "test.npz" "" false = .ok w) ∧
    (∃ w, initWriter "test.npz" "wa" false = .ok w) ∧
    initWriter "test.npz" "q" false = .error (.assertionError "q") :=
  ⟨⟨⟨some "test.npz", "xw", 0, none⟩, rfl⟩, ⟨⟨some "test.npz", "", 0, none⟩, rfl⟩,
   ⟨⟨some "test.npz", "wa", 0, none⟩, rfl⟩, rfl⟩

/-- C3: on an opened writer whose handle close succeeds, the first
`close()` finalizes the archive handle (exactly one underlying close
attempt) and nulls the `tofile` sentinel, and a second `close()` returns
successfully with no effect and no further close attempt. -/
theorem closeIdempotent (w : IncrementalNpzWriter) (env : World) (p : String) (i : Nat)
    (h : ZipHandle) (hpath : w.tofile = some p) (hfile : w.file = some i)
    (hget : env.handles[i]? = some h) (hcf : h.closeFails = false) :
    close w env = (.ok ({ w with tofile := none },
                        ⟨env.handles.set i { h with isOpen := false }⟩),
                   [.closeCalled, .handleCloseAttempt i]) ∧
    countHandleCloseAttempts [Event.closeCalled, Event.handleCloseAttempt i] = 1 ∧
    close { w with tofile := none } ⟨env.handles.set i { h with isOpen := false }⟩ =
      (.ok ({ w with tofile := none }, ⟨env.handles.set i { h with isOpen := false }⟩),
       [.closeCalled]) ∧
    countHandleCloseAttempts [Event.closeCalled] = 0 := by
  refine ⟨?_, rfl, rfl, rfl⟩
  cases hio : h.isOpen
  · simp [close, hpath, hfile, hget, hio]
  · simp [close, hpath, hfile, hget, hio, hcf]

theorem closeIdempotentWitness :
    close wWopened envOne = (.ok ({ wWopened with tofile := none },
        ⟨envOne.handles.set 0 { (⟨[], true, false⟩ : ZipHandle) with isOpen := false }⟩),
      [.closeCalled, .handleCloseAttempt 0]) ∧
    countHandleCloseAttempts [Event.closeCalled, Event.handleCloseAttempt 0] = 1 ∧
    close { wWopened with tofile := none }
        ⟨envOne.handles.set 0 { (⟨[], true, false⟩ : ZipHandle) with isOpen := false }⟩ =
      (.ok ({ wWopened with tofile := none },
            ⟨envOne.handles.set 0 { (⟨[], true, false⟩ : ZipHandle) with isOpen := false }⟩),
       [.closeCalled]) ∧
    countHandleCloseAttempts [Event.closeCalled] = 0 :=
  closeIdempotent wWopened envOne "test.npz" 0 ⟨[], true, false⟩ rfl rfl rfl rfl

/-- The archive world after `write npSaveBytes wWopened envOne "k" (.raw [5])`. -/
def envOneAfterWrite : World :=
  ⟨[⟨[⟨"k.npy", npSaveBytes (.raw [5]), true, true⟩], true, false⟩]⟩

/-- C5: every successful `write` stores the encoder's output `enc data`
as the entry content — the data is funnelled through the array encoder
whether it is an array or a raw byte blob — and the spec-modelled
concrete encoder never returns a raw blob verbatim (it prepends the npy
header). -/
theorem writeAlwaysEncodes (enc : NpzData → List Nat) (w : IncrementalNpzWriter)
    (env : World) (key : String) (data : NpzData) (env' : World) (i : Nat) (h : ZipHandle)
    (hfile : w.file = some i) (hget : env.handles[i]? = some h)
    (hok : (write enc w env key data).1 = .ok env') :
    env' = ⟨env.handles.set i
      { h with entries := h.entries ++ [⟨key ++ ".npy", enc data, true, true⟩] }⟩ ∧
    ∀ b : List Nat, npSaveBytes (.raw b) ≠ b := by
  obtain ⟨i', h', hfile', hget', hopen', hw', henv, htr⟩ :=
    write_ok_inv enc w env key data env' hok
  rw [hfile] at hfile'
  obtain rfl : i = i' := Option.some.inj hfile'
  rw [hget] at hget'
  obtain rfl : h = h' := Option.some.inj hget'
  refine ⟨henv, ?_⟩
  intro b hcontra
  have hlen : (npyMagic ++ b).length = b.length := congrArg List.length hcontra
  rw [List.length_append] at hlen
  have h6 : npyMagic.length = 6 := rfl
  omega

theorem writeAlwaysEncodesWitness :
    envOneAfterWrite = ⟨envOne.handles.set 0 { (⟨[], true, false⟩ : ZipHandle) with entries :=
      [] ++ [⟨"k" ++ ".npy", npSaveBytes (.raw [5]), true, true⟩] }⟩ ∧
    npSaveBytes (.raw [5]) ≠ [5] := by
  have h := writeAlwaysEncodes npSaveBytes wWopened envOne "k" (.raw [5]) envOneAfterWrite 0
    ⟨[], true, false⟩ rfl rfl rfl
  exact ⟨h.1, h.2 [5]⟩

/-- C7: every successful `write` with key `key` appends exactly one entry,
named `key ++ ".npy"`, to the writer's handle; all other handles and the
handle count are unchanged, and the archive handle remains open. -/
theorem writeEntryNaming (enc : NpzData → List Nat) (w : IncrementalNpzWriter)
    (env : World) (key : String) (data : NpzData) (env' : World) (i : Nat) (h : ZipHandle)
    (hfile : w.file = some i) (hget : env.handles[i]? = some h)
    (hok : (write enc w env key data).1 = .ok env') :
    ∃ h', env'.handles[i]? = some h' ∧
      h'.entries = h.entries ++ [⟨key ++ ".npy", enc data, true, true⟩] ∧
      h'.isOpen = true ∧
      env'.handles.length = env.handles.length ∧
      ∀ j, j ≠ i → env'.handles[j]? = env.handles[j]? := by
  obtain ⟨i', h', hfile', hget', hopen', hw', henv, htr⟩ :=
    write_ok_inv enc w env key data env' hok
  rw [hfile] at hfile'
  obtain rfl : i = i' := Option.some.inj hfile'
  rw [hget] at hget'
  obtain rfl : h = h' := Option.some.inj hget'
  subst henv
  obtain ⟨hlt, -⟩ := List.getElem?_eq_some.mp hget
  refine ⟨_, List.getElem?_set_self hlt, rfl, hopen', by simp, ?_⟩
  intro j hj
  exact List.getElem?_set_ne (Ne.symm hj)

theorem writeEntryNamingWitness :
    ∃ h', envOneAfterWrite.handles[(0 : Nat)]? = some h' ∧
      h'.entries = [] ++ [⟨"k" ++ ".npy", npSaveBytes (.raw [5]), true, true⟩] ∧
      h'.isOpen = true ∧
      envOneAfterWrite.handles.length = envOne.handles.length ∧
      ∀ j, j ≠ 0 → envOneAfterWrite.handles[j]? = envOne.handles[j]? :=
  writeEntryNaming npSaveBytes wWopened envOne "k" (.raw [5]) envOneAfterWrite 0
    ⟨[], true, false⟩ rfl rfl rfl

/-- C9: every entry-channel open performed by `write` requests zip64
large-file addressing, and a successful `write` performs exactly one such
open, with the zip64 flag set. -/
theorem writeRequestsZip64 (enc : NpzData → List Nat) (w : IncrementalNpzWriter)
    (env : World) (key : String) (data : NpzData) :
    (∀ n z, Event.entryOpened n z ∈ (write enc w env key data).2 → z = true) ∧
    (∀ env', (write enc w env key data).1 = .ok env' →
      (write enc w env key data).2 = [.entryOpened (key ++ ".npy") true]) := by
  constructor
  · intro n z hmem
    rcases write_spec enc w env key data with ⟨i, h, _, _, _, _, heq⟩ | ⟨_, htr⟩
    · rw [heq] at hmem
      simp at hmem
      exact hmem.2
    · rw [htr] at hmem
      simp at hmem
  · intro env' hok
    obtain ⟨_, _, _, _, _, _, _, htr⟩ := write_ok_inv enc w env key data env' hok
    exact htr

theorem writeRequestsZip64Witness :
    (write npSaveBytes wWopened envOne "k9" (.raw [7])).2 =
      [.entryOpened ("k9" ++ ".npy") true] :=
  (writeRequestsZip64 npSaveBytes wWopened envOne "k9" (.raw [7])).2
    ⟨[⟨[⟨"k9.npy", npSaveBytes (.raw [7]), true, true⟩], true, false⟩]⟩ rfl

/-- C10: on a writer that was constructed but never opened, `close()` is
not a no-op: the sentinel guard sees the non-null `tofile` and then
dereferences the null `file` handle, raising AttributeError. -/
theorem closeBeforeOpenRaises (p m : String) (c : Bool) (w : IncrementalNpzWriter)
    (env : World) (hinit : initWriter p m c = .ok w) :
    (close w env).1 = .error (.attributeError "NoneType object has no attribute close") := by
  unfold initWriter at hinit
  split at hinit
  · cases hinit
    simp [close]
  · cases hinit

theorem closeBeforeOpenRaisesWitness :
    (close wXunopened emptyWorld).1 =
      .error (.attributeError "NoneType object has no attribute close") :=
  closeBeforeOpenRaises "test.npz" "x" false wXunopened emptyWorld rfl

/-- C4: scoped usage (`with` / `contextlib`-style) of the writer performs
`openFile` on entry and calls `close()` exactly once on exit, whether the
body's appends all succeed or raise; with a well-behaved handle the
handle opened on entry is closed in the final state (never leaked). -/
theorem scopedCloseExactlyOnce (enc : NpzData → List Nat) (w : IncrementalNpzWriter)
    (env : World) (p : String) (items : List (String × NpzData))
    (hpath : w.tofile = some p)
    (hm : w.mode = "r" ∨ w.mode = "w" ∨ w.mode = "x" ∨ w.mode = "a") :
    countCloseCalls (withAppends enc w env false items).trace = 1 ∧
    (withAppends enc w env false items).trace.head? =
      some (.handleOpened env.handles.length) ∧
    ∃ hfin, (withAppends enc w env false items).world.handles[env.handles.length]? =
      some hfin ∧ hfin.isOpen = false := by
  have hopen := openFile_eq w env false p hpath hm
  rcases hb : runAppends enc { w with file := some env.handles.length }
      ⟨env.handles ++ [⟨[], true, false⟩]⟩ items with ⟨env2, berr, tr2⟩
  have hfl : worldFlags env2 = worldFlags ⟨env.handles ++ [⟨[], true, false⟩]⟩ := by
    have h0 := runAppends_flags enc { w with file := some env.handles.length } items
      ⟨env.handles ++ [⟨[], true, false⟩]⟩
    rw [hb] at h0
    exact h0
  have hflag_i : (env2.handles.map handleFlags)[env.handles.length]? = some (true, false) := by
    have hsplit : (env.handles ++ [(⟨[], true, false⟩ : ZipHandle)]).map handleFlags
        = env.handles.map handleFlags ++ [(true, false)] := by
      simp [handleFlags]
    rw [show env2.handles.map handleFlags
        = (env.handles ++ [(⟨[], true, false⟩ : ZipHandle)]).map handleFlags from hfl, hsplit]
    have hlen : (env.handles.map handleFlags).length = env.handles.length := by simp
    rw [← hlen]
    exact List.getElem?_concat_length _ _
  obtain ⟨h2, hg2, hflag2⟩ : ∃ h2, env2.handles[env.handles.length]? = some h2 ∧
      handleFlags h2 = (true, false) := by
    rw [List.getElem?_map] at hflag_i
    rcases hg : env2.handles[env.handles.length]? with _ | h2
    · rw [hg] at hflag_i
      cases hflag_i
    · rw [hg] at hflag_i
      exact ⟨h2, rfl, Option.some.inj hflag_i⟩
  have hio2 : h2.isOpen = true := congrArg Prod.fst hflag2
  have hcf2 : h2.closeFails = false := congrArg Prod.snd hflag2
  have hclose : close { w with file := some env.handles.length } env2 =
      (.ok ({ w with tofile := none, file := some env.handles.length },
            ⟨env2.handles.set env.handles.length { h2 with isOpen := false }⟩),
       [.closeCalled, .handleCloseAttempt env.handles.length]) := by
    simp [close, hpath, hg2, hio2, hcf2]
  have htr : (withAppends enc w env false items).trace =
      .handleOpened env.handles.length ::
        (tr2 ++ [.closeCalled, .handleCloseAttempt env.handles.length]) := by
    simp [withAppends, withWriter, hopen, hb, hclose]
  have hwd : (withAppends enc w env false items).world =
      ⟨env2.handles.set env.handles.length { h2 with isOpen := false }⟩ := by
    simp [withAppends, withWriter, hopen, hb, hclose]
  refine ⟨?_, ?_, ?_⟩
  · rw [htr]
    have htr2 : countCloseCalls tr2 = 0 := by
      have h0 := runAppends_closeCalls enc { w with file := some env.handles.length } items
        ⟨env.handles ++ [⟨[], true, false⟩]⟩
      rw [hb] at h0
      exact h0
    have e1 : countCloseCalls [Event.handleOpened env.handles.length] = 0 := rfl
    have e2 : countCloseCalls
        [Event.closeCalled, Event.handleCloseAttempt env.handles.length] = 1 := rfl
    calc countCloseCalls (Event.handleOpened env.handles.length ::
          (tr2 ++ [Event.closeCalled, Event.handleCloseAttempt env.handles.length]))
        = countCloseCalls ([Event.handleOpened env.handles.length] ++
            (tr2 ++ [Event.closeCalled, Event.handleCloseAttempt env.handles.length])) := rfl
      _ = countCloseCalls [Event.handleOpened env.handles.length] +
            (countCloseCalls tr2 + countCloseCalls
              [Event.closeCalled, Event.handleCloseAttempt env.handles.length]) := by
          rw [countCloseCalls_append, countCloseCalls_append]
      _ = 1 := by rw [e1, e2, htr2]
  · rw [htr]
    rfl
  · rw [hwd]
    obtain ⟨hlt, -⟩ := List.getElem?_eq_some.mp hg2
    exact ⟨{ h2 with isOpen := false }, List.getElem?_set_self hlt, rfl⟩

theorem scopedCloseExactlyOnceWitness :
    countCloseCalls (withAppends npSaveBytes wXunopened emptyWorld false
      [("a", .raw [1, 2, 3])]).trace = 1 ∧
    (withAppends npSaveBytes wXunopened emptyWorld false
      [("a", .raw [1, 2, 3])]).trace.head? = some (.handleOpened 0) ∧
    ∃ hfin, (withAppends npSaveBytes wXunopened emptyWorld false
      [("a", .raw [1, 2, 3])]).world.handles[(0 : Nat)]? = some hfin ∧
      hfin.isOpen = false :=
  scopedCloseExactlyOnce npSaveBytes wXunopened emptyWorld "test.npz"
    [("a", .raw [1, 2, 3])] rfl (Or.inr (Or.inr (Or.inl rfl)))

/-- C6 (counterexample): when the underlying handle close fails, the
exception propagates before `self.tofile = None` runs, so the writer is
NOT marked closed: the state is unchanged and `tofile` is still set, and
a repeated `close()` performs another underlying close attempt instead of
being a no-op. -/
theorem closeFailureKeepsSentinel :
    (close wWopened envFail).1 = .error (.ioError "flush failed") ∧
    step npSaveBytes (wWopened, envFail) .closeW = (wWopened, envFail) ∧
    wWopened.tofile = some "test.npz" ∧
    countHandleCloseAttempts (close wWopened envFail).2 = 1 :=
  ⟨rfl, rfl, rfl, rfl⟩

/-- C6 (amended): a failing underlying close surfaces as an IOError, with
exactly one close attempt, and leaves the writer state unchanged — in
particular `tofile` is not nulled, so a subsequent `close()` retries
rather than being a no-op. -/
theorem closeFailureLeavesWriterOpen (w : IncrementalNpzWriter) (env : World) (p : String)
    (i : Nat) (h : ZipHandle) (hpath : w.tofile = some p) (hfile : w.file = some i)
    (hget : env.handles[i]? = some h) (hio : h.isOpen = true) (hcf : h.closeFails = true) :
    (close w env).1 = .error (.ioError "flush failed") ∧
    countHandleCloseAttempts (close w env).2 = 1 ∧
    (∀ enc, step enc (w, env) .closeW = (w, env)) ∧
    w.tofile ≠ none := by
  have hclose : close w env =
      (.error (.ioError "flush failed"), [.closeCalled, .handleCloseAttempt i]) := by
    simp [close, hpath, hfile, hget, hio, hcf]
  refine ⟨by rw [hclose], by rw [hclose]; rfl, ?_, by rw [hpath]; exact Option.some_ne_none p⟩
  intro enc
  simp [step, hclose]

theorem closeFailureLeavesWriterOpenWitness :
    (close wWopened envFail).1 = .error (.ioError "flush failed") ∧
    countHandleCloseAttempts (close wWopened envFail).2 = 1 ∧
    step npSaveBytes (wWopened, envFail) .closeW = (wWopened, envFail) ∧
    wWopened.tofile ≠ none := by
  obtain ⟨a, b, c, d⟩ := closeFailureLeavesWriterOpen wWopened envFail "test.npz" 0
    ⟨[], true, true⟩ rfl rfl rfl rfl rfl
  exact ⟨a, b, c npSaveBytes, d⟩

/-- C8 (counterexample): calling `openFile` twice on one writer instance
is a reachable operation sequence, and after it two open archive handles
created by the same writer exist at once (the first is leaked). -/
theorem doubleOpenLeaksHandle :
    initWriter "test.npz" "w" false = .ok wWunopened ∧
    countOpens [Op.openF false, Op.openF false] = 2 ∧
    openHandleCount (runOps npSaveBytes (wWunopened, emptyWorld)
      [Op.openF false, Op.openF false]).2 = 2 :=
  ⟨rfl, rfl, rfl⟩

/-- C8 (amended): along any operation sequence that invokes `openFile` at
most once — the linear Unopened → Open → Closed lifecycle — a freshly
constructed writer never has more than one open archive handle. -/
theorem singleOpenHandleBound (enc : NpzData → List Nat) (p m : String) (c : Bool)
    (w : IncrementalNpzWriter) (ops : List Op)
    (_hinit : initWriter p m c = .ok w) (hops : countOpens ops ≤ 1) :
    openHandleCount (runOps enc (w, emptyWorld) ops).2 ≤ 1 := by
  have h := runOps_countOpen_le enc ops (w, emptyWorld)
  have h0 : openHandleCount (w, emptyWorld).2 = 0 := rfl
  omega

theorem singleOpenHandleBoundWitness :
    openHandleCount (runOps npSaveBytes (wWunopened, emptyWorld)
      [Op.openF false, Op.append "a" (.raw [1]), Op.closeW]).2 ≤ 1 :=
  singleOpenHandleBound npSaveBytes "test.npz" "w" false wWunopened
    [Op.openF false, Op.append "a" (.raw [1]), Op.closeW] rfl (by decide)
